import Mathlib

/-
Shallow embedding of the ReportVerse backend (Express + Mongoose) and the
client data-cache / notification-poller hooks, restricted to the parts the
verified claims are about.

Conventions of the embedding:
- Mongoose ObjectIds are modelled as natural numbers.
- Timestamps (Date.now values) are natural numbers of milliseconds.
- A Mongoose document collection is a list of records; findById / findOne
  are List.find? with the corresponding predicate; document.save persists
  the mutated record by mapping over the list.
- Enum-typed string fields (issue status, issue type) are Strings together
  with the enum list from the schema, exactly as Mongoose stores them.
- Express handlers are pure functions taking the current database and the
  request data and returning the resulting database together with the
  response, an Except carrying either the error response (HTTP status plus
  error message, mirroring res.status(code).json({success:false,error}))
  or the success payload. Handlers that cannot mutate return only the
  response. The clock (Date.now) is passed explicitly.
- A JS falsy check on a request string field (if (!text)) is modelled as
  an equality test with the empty string.
-/

namespace ReportVerse

abbrev UserId := Nat
abbrev IssueId := Nat

inductive Role where
  | mentor
  | mentee
deriving DecidableEq, Repr

/-- User schema (src/models/User.js): email, password hash, role, roster of
mentees (mentor side), assignedMentor (mentee side), profileCompleted. -/
structure UserR where
  id : UserId
  email : String
  passwordHash : String
  role : Role
  mentees : List UserId := []
  assignedMentor : Option UserId := none
  profileCompleted : Bool := false
deriving DecidableEq, Repr

/-- Embedded comment subdocument of an Issue (src/models/Issue.js):
{user, text, createdAt}. -/
structure CommentR where
  user : UserId
  text : String
  createdAt : Nat
deriving DecidableEq, Repr

/-- The status enum of the Issue schema. -/
def statusEnum : List String := ["Open", "Under Review", "Resolved", "Closed"]

/-- The issueType enum of the Issue schema. -/
def issueTypeEnum : List String :=
  ["Academic", "Grievances", "Ragging", "Harassment", "Accommodation", "Other"]

/-- Issue schema (src/models/Issue.js) with the timestamps option. -/
structure Issue where
  id : IssueId
  mentee : UserId
  mentor : UserId
  issueType : String
  description : String
  status : String := "Open"
  comments : List CommentR := []
  createdAt : Nat
  updatedAt : Nat
deriving DecidableEq, Repr

/-- The type enum of the Achievement schema. -/
def achievementTypeEnum : List String :=
  ["Sports", "Competitive Exam", "Internship", "Research Publication", "Award",
   "Cultural Event", "Technical Event", "Hackathon", "Other"]

/-- Achievement schema (src/models/User.js file, Achievement model). -/
structure Achievement where
  id : Nat
  mentee : UserId
  mentor : UserId
  achType : String
  position : String := "N/A"
  description : String
  dateOfAchievement : Nat
  isCompleted : Bool := true
deriving DecidableEq, Repr

/-- The persistent stores the claims are about. -/
structure DB where
  users : List UserR
  issues : List Issue
  achievements : List Achievement
deriving DecidableEq, Repr

/-- Error response: res.status(code).json({success:false, error:message}). -/
structure ErrResponse where
  status : Nat
  error : String
deriving DecidableEq, Repr

/-- User.findById. -/
def findUserById (db : DB) (uid : UserId) : Option UserR :=
  db.users.find? (fun u => u.id == uid)

/-- Issue.findById. -/
def findIssueById (db : DB) (iid : IssueId) : Option Issue :=
  db.issues.find? (fun i => i.id == iid)

/-- Persist a modified issue document (issue.save()): every stored issue
with the same id is replaced by the updated document. -/
def saveIssue (db : DB) (iid : IssueId) (upd : Issue) : DB :=
  { db with issues := db.issues.map (fun i => if i.id = iid then upd else i) }

/-- Insertion step of the newest-first sort used by .sort of -createdAt. -/
def insertByCreatedDesc (x : Issue) : List Issue → List Issue
  | [] => [x]
  | y :: ys =>
      if x.createdAt ≤ y.createdAt then y :: insertByCreatedDesc x ys
      else x :: y :: ys

/-- Newest-created-first ordering of an issue list (.sort of -createdAt). -/
def sortNewestFirst : List Issue → List Issue
  | [] => []
  | x :: xs => insertByCreatedDesc x (sortNewestFirst xs)

lemma mem_insertByCreatedDesc {a x : Issue} {l : List Issue} :
    a ∈ insertByCreatedDesc x l ↔ a = x ∨ a ∈ l := by
  induction l with
  | nil => simp [insertByCreatedDesc]
  | cons y ys ih =>
      simp only [insertByCreatedDesc]
      split
      · simp [ih]
        tauto
      · simp

lemma mem_sortNewestFirst {a : Issue} {l : List Issue} :
    a ∈ sortNewestFirst l ↔ a ∈ l := by
  induction l with
  | nil => simp [sortNewestFirst]
  | cons x xs ih => simp [sortNewestFirst, mem_insertByCreatedDesc, ih]

/-- Body of a comment request: {text, status}.  The mentor handler reads
both fields; the mentee handler destructures only text.  A missing field is
the empty string / none. -/
structure CommentBody where
  text : String
  status : Option String := none
deriving DecidableEq, Repr

/-- Position enum of the Achievement schema. -/
def positionEnum : List String :=
  ["1st", "2nd", "3rd", "Participation", "Winner", "Runner-up", "Completed",
   "Published", "N/A"]

/-- Body of POST /api/mentee/achievements; optional fields fall back to the
schema defaults at create time. -/
structure AchievementBody where
  achType : String
  position : Option String := none
  description : String
  dateOfAchievement : Option Nat := none
  isCompleted : Option Bool := none
deriving DecidableEq, Repr

namespace MenteeController

/-- GET /api/mentee/issues (menteeController.getIssues): all issues whose
mentee field is the caller, newest first. -/
def getIssues (db : DB) (callerId : UserId) : Except ErrResponse (List Issue) :=
  Except.ok (sortNewestFirst (db.issues.filter (fun i => i.mentee == callerId)))

/-- POST /api/mentee/issues (menteeController.createIssue): loads the
caller, requires an assigned mentor, then creates the issue with
mentor = the assigned mentor, status defaulting to Open and an empty
comment list.  A Mongoose validation failure on the body (issueType outside
the enum, missing description) is caught by the catch block and surfaces as
a 500 with the validation message. -/
def createIssue (db : DB) (callerId : UserId) (issueType description : String)
    (newId : IssueId) (now : Nat) : DB × Except ErrResponse Issue :=
  match findUserById db callerId with
  | none => (db, Except.error ⟨404, "Mentee not found"⟩)
  | some mentee =>
      match mentee.assignedMentor with
      | none => (db, Except.error ⟨400, "No assigned mentor found"⟩)
      | some mentorId =>
          if issueTypeEnum.contains issueType ∧ description ≠ "" then
            let issue : Issue :=
              { id := newId, mentee := callerId, mentor := mentorId,
                issueType := issueType, description := description,
                status := "Open", comments := [],
                createdAt := now, updatedAt := now }
            ({ db with issues := db.issues ++ [issue] }, Except.ok issue)
          else (db, Except.error ⟨500, "Issue validation failed"⟩)

/-- POST /api/mentee/achievements (menteeController.createAchievement):
loads the caller, requires an assigned mentor, additionally requires that
the assigned mentor still resolves to a user, then creates the achievement
with the schema defaults for omitted fields.  Validation failures surface
as 500 through the catch block. -/
def createAchievement (db : DB) (callerId : UserId) (body : AchievementBody)
    (newId : Nat) (now : Nat) : DB × Except ErrResponse Achievement :=
  match findUserById db callerId with
  | none => (db, Except.error ⟨404, "Mentee not found"⟩)
  | some mentee =>
      match mentee.assignedMentor with
      | none => (db, Except.error ⟨400, "No assigned mentor found"⟩)
      | some mentorId =>
          match findUserById db mentorId with
          | none => (db, Except.error ⟨404, "Assigned mentor not found"⟩)
          | some _ =>
              let position := body.position.getD "N/A"
              if achievementTypeEnum.contains body.achType
                  ∧ positionEnum.contains position ∧ body.description ≠ "" then
                let a : Achievement :=
                  { id := newId, mentee := mentee.id, mentor := mentorId,
                    achType := body.achType, position := position,
                    description := body.description,
                    dateOfAchievement := body.dateOfAchievement.getD now,
                    isCompleted := body.isCompleted.getD true }
                ({ db with achievements := db.achievements ++ [a] }, Except.ok a)
              else (db, Except.error ⟨500, "Achievement validation failed"⟩)

/-- POST /api/mentee/issues/:issueId/comments (menteeController.addComment):
requires non-empty text, the issue to exist and to belong to the caller;
pushes {user = caller, text, now} onto the comment list, saves, and responds
with the newly added comment (the last element), not the issue.  The status
field of the body is never read. -/
def addComment (db : DB) (callerId : UserId) (iid : IssueId)
    (body : CommentBody) (now : Nat) : DB × Except ErrResponse CommentR :=
  if body.text = "" then
    (db, Except.error ⟨400, "Comment text is required"⟩)
  else
    match findIssueById db iid with
    | none => (db, Except.error ⟨404, "Issue not found"⟩)
    | some issue =>
        if issue.mentee ≠ callerId then
          (db, Except.error ⟨403, "Not authorized to access this issue"⟩)
        else
          let upd : Issue :=
            { issue with
                comments := issue.comments ++ [⟨callerId, body.text, now⟩],
                updatedAt := now }
          let newComment := upd.comments.getLast?.getD ⟨callerId, body.text, now⟩
          (saveIssue db iid upd, Except.ok newComment)

end MenteeController

/-- The status-overwrite step of the mentor addComment handler: when the
body carries a status and it is one of the four enum values, the issue
status is overwritten, otherwise the issue is left as it is. -/
def applyStatus (issue : Issue) : Option String → Issue
  | some s => if statusEnum.contains s then { issue with status := s } else issue
  | none => issue

namespace MentorController

/-- GET /api/mentor/issues (mentorController.getIssues): the handler first
loads the mentor (404 when absent) and then returns all issues whose mentor
field is the caller, newest first.  The populate of the mentee email is a
presentation step and is not modelled. -/
def getIssues (db : DB) (callerId : UserId) : Except ErrResponse (List Issue) :=
  match findUserById db callerId with
  | none => Except.error ⟨404, "Mentor not found"⟩
  | some _ =>
      Except.ok (sortNewestFirst (db.issues.filter (fun i => i.mentor == callerId)))

/-- POST /api/mentor/issues/:issueId/comment (mentorController.addComment):
requires non-empty text, the issue to exist and to be assigned to the
calling mentor; pushes {user = caller, text, now} onto the comment list;
when the body carries a status that is one of the four enum values the
issue status is overwritten with it (a JS-falsy empty-string status is
outside the enum and hence equally skipped); saves and responds with the
updated issue. -/
def addComment (db : DB) (callerId : UserId) (iid : IssueId)
    (body : CommentBody) (now : Nat) : DB × Except ErrResponse Issue :=
  if body.text = "" then
    (db, Except.error ⟨400, "Comment text is required"⟩)
  else
    match findIssueById db iid with
    | none => (db, Except.error ⟨404, "Issue not found"⟩)
    | some issue =>
        if issue.mentor ≠ callerId then
          (db, Except.error ⟨403, "Not authorized to comment on this issue"⟩)
        else
          let saved : Issue :=
            { applyStatus
                { issue with
                    comments := issue.comments ++ [⟨callerId, body.text, now⟩] }
                body.status with
              updatedAt := now }
          (saveIssue db iid saved, Except.ok saved)

end MentorController

/-- C1: listing for a mentor returns only issues whose mentor field is the
caller, and listing for a mentee returns only issues whose mentee field is
the caller; no issue whose recorded mentor or mentee differs from the caller
ever appears in the returned list. -/
theorem listIssues_owner_only (db : DB) (callerId : UserId) :
    (∀ l, MenteeController.getIssues db callerId = Except.ok l →
      ∀ i ∈ l, i.mentee = callerId)
    ∧ (∀ l, MentorController.getIssues db callerId = Except.ok l →
      ∀ i ∈ l, i.mentor = callerId) := by
  constructor
  · intro l hl i hi
    simp only [MenteeController.getIssues, Except.ok.injEq] at hl
    subst hl
    rw [mem_sortNewestFirst, List.mem_filter] at hi
    simpa using hi.2
  · intro l hl i hi
    unfold MentorController.getIssues at hl
    cases h : findUserById db callerId with
    | none => rw [h] at hl; cases hl
    | some u =>
        rw [h] at hl
        simp only [Except.ok.injEq] at hl
        subst hl
        rw [mem_sortNewestFirst, List.mem_filter] at hi
        simpa using hi.2

/-- Concrete mentor user used by witnesses. -/
def mentorW : UserR :=
  { id := 1, email := "m@x.com", passwordHash := "h1", role := Role.mentor,
    mentees := [2] }

/-- Concrete mentee user used by witnesses. -/
def menteeW : UserR :=
  { id := 2, email := "a@x.com", passwordHash := "h2", role := Role.mentee,
    assignedMentor := some 1 }

/-- Concrete issue used by witnesses. -/
def issueW : Issue :=
  { id := 10, mentee := 2, mentor := 1, issueType := "Academic",
    description := "d", status := "Open", comments := [],
    createdAt := 100, updatedAt := 100 }

/-- Concrete database used by witnesses. -/
def dbW : DB :=
  { users := [mentorW, menteeW], issues := [issueW], achievements := [] }

/-- Witness for C1 at a concrete database: the listings succeed and the
returned issue carries the caller as its recorded mentee / mentor. -/
theorem listIssues_owner_only_witness :
    (MenteeController.getIssues dbW 2 = Except.ok [issueW]
      ∧ issueW.mentee = 2)
    ∧ (MentorController.getIssues dbW 1 = Except.ok [issueW]
      ∧ issueW.mentor = 1) :=
  ⟨⟨rfl, (listIssues_owner_only dbW 2).1 [issueW] rfl issueW (by simp)⟩,
   ⟨rfl, (listIssues_owner_only dbW 1).2 [issueW] rfl issueW (by simp)⟩⟩

lemma find?_update_self (l : List Issue) (iid : IssueId) (upd old : Issue)
    (hid : upd.id = iid)
    (h : l.find? (fun i => i.id == iid) = some old) :
    (l.map (fun i => if i.id = iid then upd else i)).find? (fun i => i.id == iid)
      = some upd := by
  induction l with
  | nil => cases h
  | cons x xs ih =>
      by_cases hx : x.id = iid
      · simp [List.find?, hx, hid]
      · simp only [List.find?, List.map_cons] at h ⊢
        rw [if_neg hx]
        have hbx : (x.id == iid) = false := by simp [hx]
        rw [hbx] at h ⊢
        exact ih h

lemma find?_update_other (l : List Issue) (iid oid : IssueId) (upd : Issue)
    (hid : upd.id = iid) (hne : oid ≠ iid) :
    (l.map (fun i => if i.id = iid then upd else i)).find? (fun i => i.id == oid)
      = l.find? (fun i => i.id == oid) := by
  induction l with
  | nil => simp
  | cons x xs ih =>
      by_cases hx : x.id = iid
      · have hb : (x.id == oid) = false := by
          simp [hx]
          exact fun hc => hne hc.symm
        have hb2 : (upd.id == oid) = false := by
          simp [hid]
          exact fun hc => hne hc.symm
        simp only [List.map_cons, List.find?]
        rw [if_pos hx, hb, hb2]
        exact ih
      · simp only [List.map_cons, List.find?]
        rw [if_neg hx]
        cases hbo : (x.id == oid) with
        | true => rfl
        | false => exact ih

lemma getLast?_append_one {α : Type} (l : List α) (a : α) :
    (l ++ [a]).getLast? = some a :=
  List.getLast?_concat l

lemma applyStatus_comments (issue : Issue) (st : Option String) :
    (applyStatus issue st).comments = issue.comments := by
  cases st with
  | none => rfl
  | some s =>
      simp only [applyStatus]
      split <;> rfl

lemma applyStatus_id (issue : Issue) (st : Option String) :
    (applyStatus issue st).id = issue.id := by
  cases st with
  | none => rfl
  | some s =>
      simp only [applyStatus]
      split <;> rfl

lemma applyStatus_some {s : String} (issue : Issue)
    (hs : statusEnum.contains s) :
    (applyStatus issue (some s)).status = s := by
  simp only [applyStatus]
  rw [if_pos hs]

lemma applyStatus_none (issue : Issue) :
    (applyStatus issue none).status = issue.status := rfl

/-- C2: the AddComment operation of the issue lifecycle service (the
mentor-side endpoint, which takes the optional new status): empty text
fails with the 400 validation error; for an authorized caller with
non-empty text it appends {author = caller, text, now}, the response is the
updated issue whose last comment is the new one, and a supplied status that
is one of the four enum values overwrites the issue status unconditionally
(no constraint relates it to the previous status). -/
theorem mentor_addComment_spec (db : DB) (callerId : UserId) (iid : IssueId)
    (body : CommentBody) (now : Nat) :
    (body.text = "" →
      MentorController.addComment db callerId iid body now
        = (db, Except.error ⟨400, "Comment text is required"⟩))
    ∧ (∀ issue, findIssueById db iid = some issue → issue.mentor = callerId →
        body.text ≠ "" →
        ∀ db2 iss2,
          MentorController.addComment db callerId iid body now = (db2, Except.ok iss2) →
          iss2.comments = issue.comments ++ [⟨callerId, body.text, now⟩]
          ∧ iss2.comments.getLast? = some ⟨callerId, body.text, now⟩
          ∧ (∀ s, body.status = some s → statusEnum.contains s → iss2.status = s)
          ∧ (body.status = none → iss2.status = issue.status)
          ∧ findIssueById db2 iid = some iss2)
    ∧ (∀ issue, findIssueById db iid = some issue → issue.mentor = callerId →
        body.text ≠ "" →
        (MentorController.addComment db callerId iid body now).2.isOk = true) := by
  refine ⟨?_, ?_, ?_⟩
  · intro ht
    simp [MentorController.addComment, ht]
  · intro issue hfind hmentor htext db2 iss2 hrun
    have hiid : issue.id = iid := by
      have := List.find?_some (p := fun (i : Issue) => i.id == iid)
        (by simpa [findIssueById] using hfind)
      simpa using this
    unfold MentorController.addComment at hrun
    rw [if_neg htext, hfind] at hrun
    simp only [] at hrun
    rw [if_neg (show ¬issue.mentor ≠ callerId by simp [hmentor])] at hrun
    simp only [Prod.mk.injEq, Except.ok.injEq] at hrun
    obtain ⟨hdb2, hiss2⟩ := hrun
    subst hdb2
    subst hiss2
    refine ⟨?_, ?_, ?_, ?_, ?_⟩
    · simp [applyStatus_comments]
    · simp [applyStatus_comments, getLast?_append_one]
    · intro s hs hse
      rw [hs]
      simpa using applyStatus_some _ hse
    · intro hnone
      rw [hnone]
      simp [applyStatus_none]
    · exact find?_update_self db.issues iid _ issue
        (by simp [applyStatus_id, hiid]) hfind
  · intro issue hfind hmentor htext
    unfold MentorController.addComment
    rw [if_neg htext, hfind]
    simp only []
    rw [if_neg (show ¬issue.mentor ≠ callerId by simp [hmentor])]
    rfl

/-- The issue of the witness database after the witness mentor comment with
a Resolved status. -/
def issueW2 : Issue :=
  { issueW with comments := [⟨1, "hi", 5⟩], status := "Resolved", updatedAt := 5 }

/-- Witness for C2 at a concrete database: the empty-text call fails with
the 400 validation error, and a mentor comment carrying status Resolved
appends the comment, makes it the last element, overwrites the status and
persists the updated issue. -/
theorem mentor_addComment_spec_witness :
    (MentorController.addComment dbW 1 10 { text := "", status := none } 5
      = (dbW, Except.error ⟨400, "Comment text is required"⟩))
    ∧ (issueW2.comments = issueW.comments ++ [⟨1, "hi", 5⟩]
      ∧ issueW2.comments.getLast? = some ⟨1, "hi", 5⟩
      ∧ issueW2.status = "Resolved"
      ∧ findIssueById (saveIssue dbW 10 issueW2) 10 = some issueW2) := by
  refine ⟨(mentor_addComment_spec dbW 1 10 { text := "", status := none } 5).1 rfl, ?_⟩
  have h := (mentor_addComment_spec dbW 1 10
      { text := "hi", status := some "Resolved" } 5).2.1 issueW rfl rfl
      (by decide) (saveIssue dbW 10 issueW2) issueW2 rfl
  exact ⟨h.1, h.2.1, h.2.2.1 "Resolved" rfl (by decide), h.2.2.2.2⟩

/-- C3: for every mentee with no assigned mentor, createIssue and
createAchievement both fail with the 400 response whose message is the
string No assigned mentor found, and the database — in particular the
issue store and the achievement store — is returned unchanged. -/
theorem create_requires_assigned_mentor (db : DB) (callerId : UserId)
    (ty desc : String) (body : AchievementBody) (newId now : Nat) (u : UserR)
    (hu : findUserById db callerId = some u)
    (hm : u.assignedMentor = none) :
    MenteeController.createIssue db callerId ty desc newId now
      = (db, Except.error ⟨400, "No assigned mentor found"⟩)
    ∧ MenteeController.createAchievement db callerId body newId now
      = (db, Except.error ⟨400, "No assigned mentor found"⟩) := by
  constructor
  · unfold MenteeController.createIssue
    rw [hu]
    simp only []
    rw [hm]
  · unfold MenteeController.createAchievement
    rw [hu]
    simp only []
    rw [hm]

/-- Mentee with no assigned mentor, used by the C3 witness. -/
def menteeU : UserR :=
  { id := 3, email := "u@x.com", passwordHash := "h3", role := Role.mentee }

/-- Witness database containing the unassigned mentee. -/
def dbU : DB :=
  { users := [mentorW, menteeW, menteeU], issues := [issueW], achievements := [] }

/-- Witness for C3 at a concrete database: both create operations fail
with 400 No assigned mentor found and leave the database untouched. -/
theorem create_requires_assigned_mentor_witness :
    MenteeController.createIssue dbU 3 "Academic" "d" 77 9
      = (dbU, Except.error ⟨400, "No assigned mentor found"⟩)
    ∧ MenteeController.createAchievement dbU 3
        { achType := "Sports", description := "d" } 77 9
      = (dbU, Except.error ⟨400, "No assigned mentor found"⟩) :=
  create_requires_assigned_mentor dbU 3 "Academic" "d"
    { achType := "Sports", description := "d" } 77 9 menteeU rfl rfl

/-- C4: appending a comment never removes, edits or reorders the stored
comments: after every successful addComment, on the mentor side as on the
mentee side, the stored comment list of the issue is exactly the prior list
with the one new element appended at the end. -/
theorem addComment_append_only (db : DB) (callerId : UserId) (iid : IssueId)
    (body : CommentBody) (now : Nat) (issue : Issue)
    (hfind : findIssueById db iid = some issue) :
    (∀ db2 iss2,
        MentorController.addComment db callerId iid body now = (db2, Except.ok iss2) →
        iss2.comments = issue.comments ++ [⟨callerId, body.text, now⟩]
        ∧ findIssueById db2 iid = some iss2)
    ∧ (∀ db2 c,
        MenteeController.addComment db callerId iid body now = (db2, Except.ok c) →
        ∀ iss2, findIssueById db2 iid = some iss2 →
          iss2.comments = issue.comments ++ [⟨callerId, body.text, now⟩]) := by
  have hiid : issue.id = iid := by
    have := List.find?_some (p := fun (i : Issue) => i.id == iid)
      (by simpa [findIssueById] using hfind)
    simpa using this
  constructor
  · intro db2 iss2 hrun
    by_cases htext : body.text = ""
    · unfold MentorController.addComment at hrun
      rw [if_pos htext] at hrun
      simp only [Prod.mk.injEq] at hrun
      exact Except.noConfusion hrun.2
    · unfold MentorController.addComment at hrun
      rw [if_neg htext, hfind] at hrun
      simp only [] at hrun
      by_cases hmentor : issue.mentor = callerId
      · rw [if_neg (show ¬issue.mentor ≠ callerId by simp [hmentor])] at hrun
        simp only [Prod.mk.injEq, Except.ok.injEq] at hrun
        obtain ⟨hdb2, hiss2⟩ := hrun
        subst hdb2
        subst hiss2
        refine ⟨by simp [applyStatus_comments], ?_⟩
        exact find?_update_self db.issues iid _ issue
          (by simp [applyStatus_id, hiid]) hfind
      · rw [if_pos hmentor] at hrun
        simp only [Prod.mk.injEq] at hrun
        exact Except.noConfusion hrun.2
  · intro db2 c hrun iss2 hfind2
    by_cases htext : body.text = ""
    · unfold MenteeController.addComment at hrun
      rw [if_pos htext] at hrun
      simp only [Prod.mk.injEq] at hrun
      exact Except.noConfusion hrun.2
    · unfold MenteeController.addComment at hrun
      rw [if_neg htext, hfind] at hrun
      simp only [] at hrun
      by_cases hmentee : issue.mentee = callerId
      · rw [if_neg (show ¬issue.mentee ≠ callerId by simp [hmentee])] at hrun
        simp only [Prod.mk.injEq] at hrun
        obtain ⟨hdb2, -⟩ := hrun
        subst hdb2
        have hupd := find?_update_self db.issues iid
          { issue with
              comments := issue.comments ++ [⟨callerId, body.text, now⟩],
              updatedAt := now }
          issue (by simpa using hiid) hfind
        have h2 := hfind2
        unfold findIssueById saveIssue at h2
        simp only [] at h2
        rw [hupd] at h2
        injection h2 with h3
        subst h3
        rfl
      · rw [if_pos hmentee] at hrun
        simp only [Prod.mk.injEq] at hrun
        exact Except.noConfusion hrun.2

/-- Witness issue after the C4 mentor comment. -/
def issueW3 : Issue :=
  { issueW with comments := [⟨1, "please", 6⟩], updatedAt := 6 }

/-- Witness issue after the C4 mentee comment. -/
def issueW5 : Issue :=
  { issueW with comments := [⟨2, "more", 8⟩], updatedAt := 8 }

/-- Witness for C4 at a concrete database: a successful mentor comment and
a successful mentee comment each leave the stored comment list equal to the
prior list with one element appended. -/
theorem addComment_append_only_witness :
    (issueW3.comments = issueW.comments ++ [⟨1, "please", 6⟩]
      ∧ findIssueById (saveIssue dbW 10 issueW3) 10 = some issueW3)
    ∧ issueW5.comments = issueW.comments ++ [⟨2, "more", 8⟩] :=
  ⟨(addComment_append_only dbW 1 10 { text := "please", status := none } 6
      issueW rfl).1 (saveIssue dbW 10 issueW3) issueW3 rfl,
   (addComment_append_only dbW 2 10 { text := "more", status := none } 8
      issueW rfl).2 (saveIssue dbW 10 issueW5) ⟨2, "more", 8⟩ rfl issueW5 rfl⟩

/-- C10: a successful mentee comment call never changes the issue status,
whatever status value the request body carries: only the comment list and
the updatedAt timestamp of the stored issue change, no other issue and no
other store is touched, the response is the newly appended comment alone
rather than the issue, and the handler output does not depend on the status
field of the body at all. -/
theorem menteeAddComment_status_frame (db : DB) (callerId : UserId)
    (iid : IssueId) (body : CommentBody) (now : Nat) (issue : Issue)
    (db2 : DB) (c : CommentR)
    (hfind : findIssueById db iid = some issue)
    (hrun : MenteeController.addComment db callerId iid body now
      = (db2, Except.ok c)) :
    c = ⟨callerId, body.text, now⟩
    ∧ (∀ iss2, findIssueById db2 iid = some iss2 →
        iss2.status = issue.status
        ∧ iss2.comments = issue.comments ++ [⟨callerId, body.text, now⟩]
        ∧ iss2.mentee = issue.mentee ∧ iss2.mentor = issue.mentor
        ∧ iss2.issueType = issue.issueType
        ∧ iss2.description = issue.description
        ∧ iss2.createdAt = issue.createdAt)
    ∧ db2.users = db.users
    ∧ db2.achievements = db.achievements
    ∧ (∀ oid, oid ≠ iid → findIssueById db2 oid = findIssueById db oid)
    ∧ (∀ s, MenteeController.addComment db callerId iid
        { body with status := s } now
        = MenteeController.addComment db callerId iid body now) := by
  have hiid : issue.id = iid := by
    have := List.find?_some (p := fun (i : Issue) => i.id == iid)
      (by simpa [findIssueById] using hfind)
    simpa using this
  have hindep : ∀ s, MenteeController.addComment db callerId iid
      { body with status := s } now
      = MenteeController.addComment db callerId iid body now := fun _ => rfl
  by_cases htext : body.text = ""
  · unfold MenteeController.addComment at hrun
    rw [if_pos htext] at hrun
    simp only [Prod.mk.injEq] at hrun
    exact Except.noConfusion hrun.2
  · unfold MenteeController.addComment at hrun
    rw [if_neg htext, hfind] at hrun
    simp only [] at hrun
    by_cases hmentee : issue.mentee = callerId
    · rw [if_neg (show ¬issue.mentee ≠ callerId by simp [hmentee])] at hrun
      simp only [Prod.mk.injEq, Except.ok.injEq] at hrun
      obtain ⟨hdb2, hc⟩ := hrun
      subst hdb2
      subst hc
      refine ⟨?_, ?_, rfl, rfl, ?_, hindep⟩
      · simp [getLast?_append_one]
      · intro iss2 hfind2
        have hupd := find?_update_self db.issues iid
          { issue with
              comments := issue.comments ++ [⟨callerId, body.text, now⟩],
              updatedAt := now }
          issue (by simpa using hiid) hfind
        have h2 := hfind2
        unfold findIssueById saveIssue at h2
        simp only [] at h2
        rw [hupd] at h2
        injection h2 with h3
        subst h3
        exact ⟨rfl, rfl, rfl, rfl, rfl, rfl, rfl⟩
      · intro oid hoid
        unfold findIssueById saveIssue
        simp only []
        exact find?_update_other db.issues iid oid _ (by simpa using hiid) hoid
    · rw [if_pos hmentee] at hrun
      simp only [Prod.mk.injEq] at hrun
      exact Except.noConfusion hrun.2

/-- Witness issue after the C10 mentee comment carrying a status value. -/
def issueW4 : Issue :=
  { issueW with comments := [⟨2, "det", 7⟩], updatedAt := 7 }

/-- Witness for C10 at a concrete database: a mentee comment whose body
carries status Closed responds with the comment alone and leaves the stored
issue status Open. -/
theorem menteeAddComment_status_frame_witness :
    (⟨2, "det", 7⟩ : CommentR) = ⟨2, "det", 7⟩
    ∧ issueW4.status = issueW.status
    ∧ issueW4.comments = issueW.comments ++ [⟨2, "det", 7⟩]
    ∧ (saveIssue dbW 10 issueW4).users = dbW.users := by
  have h := menteeAddComment_status_frame dbW 2 10
    { text := "det", status := some "Closed" } 7 issueW
    (saveIssue dbW 10 issueW4) ⟨2, "det", 7⟩ rfl rfl
  have h2 := h.2.1 issueW4 rfl
  exact ⟨h.1, h2.1, h2.2.1, h.2.2.1⟩

/-- User.findOne({email, role: mentee}) of the assignMentee handler. -/
def findMenteeByEmail (db : DB) (email : String) : Option UserR :=
  db.users.find? (fun u => u.email == email && u.role == Role.mentee)

/-- Persist a modified user document (user.save()): every stored user with
the same id is replaced by the updated document. -/
def saveUser (db : DB) (uid : UserId) (upd : UserR) : DB :=
  { db with users := db.users.map (fun u => if u.id = uid then upd else u) }

namespace MentorController

/-- POST /api/mentor/mentees/assign (mentorController.assignMentee):
requires an email, resolves it to a mentee user (404 otherwise), fails 400
when that mentee already has any assigned mentor, loads the calling mentor
(404 when absent), fails 400 when the mentee is already in the roster of
the calling mentor, and otherwise appends the mentee to the roster and sets
assignedMentor, as two successive saves.  The success response body lies
outside the provided source, so the success payload is left abstract (Unit); the
state mutation is fully modelled. -/
def assignMentee (db : DB) (callerId : UserId) (email : String) :
    DB × Except ErrResponse Unit :=
  if email = "" then
    (db, Except.error ⟨400, "Mentee email is required"⟩)
  else
    match findMenteeByEmail db email with
    | none => (db, Except.error ⟨404, "Mentee not found with this email"⟩)
    | some mentee =>
        match mentee.assignedMentor with
        | some _ =>
            (db, Except.error ⟨400, "Mentee is already assigned to a mentor"⟩)
        | none =>
            match findUserById db callerId with
            | none => (db, Except.error ⟨404, "Mentor not found"⟩)
            | some mentor =>
                if mentor.mentees.contains mentee.id then
                  (db, Except.error ⟨400, "Mentee is already assigned to you"⟩)
                else
                  let mentor2 :=
                    { mentor with mentees := mentor.mentees ++ [mentee.id] }
                  let db2 := saveUser db mentor.id mentor2
                  let mentee2 :=
                    { mentee with assignedMentor := some mentor.id }
                  let db3 := saveUser db2 mentee.id mentee2
                  (db3, Except.ok ())

end MentorController

/-- C5: assignMentee fails 404 when no mentee user has the given email;
fails 400 AlreadyAssigned when the resolved mentee already has an assigned
mentor, or is already present in the roster of the calling mentor; and in
every one of these failure cases the returned database is the input
database, so the roster of the mentor (in particular its length) and the
assignedMentor field of the mentee are unchanged. -/
theorem assignMentee_failure_paths (db : DB) (callerId : UserId)
    (email : String) :
    (email ≠ "" → findMenteeByEmail db email = none →
      MentorController.assignMentee db callerId email
        = (db, Except.error ⟨404, "Mentee not found with this email"⟩))
    ∧ (∀ mentee mid, email ≠ "" →
        findMenteeByEmail db email = some mentee →
        mentee.assignedMentor = some mid →
        MentorController.assignMentee db callerId email
          = (db, Except.error ⟨400, "Mentee is already assigned to a mentor"⟩))
    ∧ (∀ mentee mentor, email ≠ "" →
        findMenteeByEmail db email = some mentee →
        mentee.assignedMentor = none →
        findUserById db callerId = some mentor →
        mentee.id ∈ mentor.mentees →
        MentorController.assignMentee db callerId email
          = (db, Except.error ⟨400, "Mentee is already assigned to you"⟩)) := by
  refine ⟨?_, ?_, ?_⟩
  · intro hne hnone
    unfold MentorController.assignMentee
    rw [if_neg hne, hnone]
  · intro mentee mid hne hsome hass
    unfold MentorController.assignMentee
    rw [if_neg hne, hsome]
    simp only []
    rw [hass]
  · intro mentee mentor hne hsome hass hmentor hmem
    unfold MentorController.assignMentee
    rw [if_neg hne, hsome]
    simp only []
    rw [hass]
    simp only []
    rw [hmentor]
    simp only []
    rw [if_pos (by simpa using hmem)]

/-- Mentee already in the roster of mentorW but without assignedMentor,
used by the C5 witness for the roster-duplicate branch. -/
def menteeR : UserR :=
  { id := 4, email := "r@x.com", passwordHash := "h4", role := Role.mentee }

/-- Witness database for C5: mentorW has mentee 4 in its roster, menteeW
has an assigned mentor, and no user carries the unknown email. -/
def dbA : DB :=
  { users := [{ mentorW with mentees := [2, 4] }, menteeW, menteeR],
    issues := [], achievements := [] }

/-- Witness for C5 at a concrete database: the three failure branches each
return the error and the untouched database. -/
theorem assignMentee_failure_paths_witness :
    MentorController.assignMentee dbA 1 "nobody@x.com"
      = (dbA, Except.error ⟨404, "Mentee not found with this email"⟩)
    ∧ MentorController.assignMentee dbA 1 "a@x.com"
      = (dbA, Except.error ⟨400, "Mentee is already assigned to a mentor"⟩)
    ∧ MentorController.assignMentee dbA 1 "r@x.com"
      = (dbA, Except.error ⟨400, "Mentee is already assigned to you"⟩) :=
  ⟨(assignMentee_failure_paths dbA 1 "nobody@x.com").1 (by decide) rfl,
   (assignMentee_failure_paths dbA 1 "a@x.com").2.1 menteeW 1 (by decide) rfl rfl,
   (assignMentee_failure_paths dbA 1 "r@x.com").2.2 menteeR
     { mentorW with mentees := [2, 4] } (by decide) rfl rfl rfl (by decide)⟩

/-- The data part of a successful login response. -/
structure LoginData where
  id : UserId
  email : String
  role : Role
  profileCompleted : Bool
deriving DecidableEq, Repr

/-- A successful login response: the signed bearer token (generateToken
signs the user id, modelled by the id it embeds) and the user data. -/
structure LoginSuccess where
  token : UserId
  data : LoginData
deriving DecidableEq, Repr

/-- User.findOne({email}) of the login handler. -/
def findUserByEmail (db : DB) (email : String) : Option UserR :=
  db.users.find? (fun u => u.email == email)

namespace AuthController

/-- POST /api/auth/login (authController.login): requires email and
password, resolves the email to a user, compares the password against the
stored hash through the bcrypt comparison (passed in as check), and fails
401 Invalid credentials both when no user exists and when the comparison
fails; on success issues the token with the user data. -/
def login (db : DB) (check : String → String → Bool)
    (email password : String) : Except ErrResponse LoginSuccess :=
  if email = "" ∨ password = "" then
    Except.error ⟨400, "Please provide email and password"⟩
  else
    match findUserByEmail db email with
    | none => Except.error ⟨401, "Invalid credentials"⟩
    | some user =>
        if !(check password user.passwordHash) then
          Except.error ⟨401, "Invalid credentials"⟩
        else
          Except.ok
            { token := user.id,
              data :=
                { id := user.id, email := user.email, role := user.role,
                  profileCompleted := user.profileCompleted } }

end AuthController

/-- C6: login with an email that resolves to no user, and login with an
email that resolves to a user whose password comparison fails, produce the
identical response: the same 401 status with the same Invalid credentials
message, so the two failure causes are indistinguishable to the caller. -/
theorem login_invalid_credentials_indistinguishable (db : DB)
    (check : String → String → Bool) (e1 p1 e2 p2 : String) (u : UserR)
    (h1e : e1 ≠ "") (h1p : p1 ≠ "")
    (hno : findUserByEmail db e1 = none)
    (h2e : e2 ≠ "") (h2p : p2 ≠ "")
    (hu : findUserByEmail db e2 = some u)
    (hw : check p2 u.passwordHash = false) :
    AuthController.login db check e1 p1
      = Except.error ⟨401, "Invalid credentials"⟩
    ∧ AuthController.login db check e2 p2
      = Except.error ⟨401, "Invalid credentials"⟩
    ∧ AuthController.login db check e1 p1
      = AuthController.login db check e2 p2 := by
  have hfirst : AuthController.login db check e1 p1
      = Except.error ⟨401, "Invalid credentials"⟩ := by
    unfold AuthController.login
    rw [if_neg (by simp [h1e, h1p]), hno]
  have hsecond : AuthController.login db check e2 p2
      = Except.error ⟨401, "Invalid credentials"⟩ := by
    unfold AuthController.login
    rw [if_neg (by simp [h2e, h2p]), hu]
    simp [hw]
  exact ⟨hfirst, hsecond, hfirst.trans hsecond.symm⟩

/-- Witness for C6 at a concrete database: a nonexistent email and an
existing email with a failing password comparison both yield 401 Invalid
credentials, and the two responses are equal. -/
theorem login_indistinguishable_witness :
    AuthController.login dbW (fun p h => p == h) "nobody@x.com" "pw"
      = Except.error ⟨401, "Invalid credentials"⟩
    ∧ AuthController.login dbW (fun p h => p == h) "m@x.com" "wrong"
      = Except.error ⟨401, "Invalid credentials"⟩
    ∧ AuthController.login dbW (fun p h => p == h) "nobody@x.com" "pw"
      = AuthController.login dbW (fun p h => p == h) "m@x.com" "wrong" :=
  login_invalid_credentials_indistinguishable dbW (fun p h => p == h)
    "nobody@x.com" "pw" "m@x.com" "wrong" mentorW
    (by decide) (by decide) rfl (by decide) (by decide) rfl (by decide)

/-- State held by the useAPIService hook:
{data, isLoading, error, lastUpdated}. -/
structure APIServiceState (T : Type) where
  data : Option T
  isLoading : Bool
  error : Option String
  lastUpdated : Option Nat
deriving DecidableEq, Repr

/-- Outcome of the awaited apiCall, folding together a rejected promise and
a response whose body carries success false (both reach the catch block of
execute with a message). -/
inductive NetResult (T : Type) where
  | success (value : T)
  | failure (msg : String)
deriving DecidableEq, Repr

/-- DEFAULT_OPTIONS.cacheTime of useAPIService: five minutes. -/
def defaultCacheTime : Nat := 5 * 60 * 1000

/-- The cacheTime passed by the mentor dashboard page: thirty seconds. -/
def mentorDashboardCacheTime : Nat := 30 * 1000

/-- The cache-validity test of execute: no forced skip, a recorded
lastUpdated, and now minus lastUpdated under the cache time.  (JS computes
a possibly negative difference; over Nat the truncated difference is then
zero, under any positive cache time, the same verdict.) -/
def isCacheValid (skipCache : Bool) (lastUpdated : Option Nat)
    (cacheTime now : Nat) : Bool :=
  !skipCache &&
    (match lastUpdated with
     | some t => decide (now - t < cacheTime)
     | none => false)

namespace useAPIService

/-- The execute function of useAPIService: when the cache is valid and data
is present, the cached data is returned with the state untouched and the
apiCall is never invoked (the middle Bool of the result records whether the
network call was performed); otherwise the call runs, success replaces data
and stamps lastUpdated with the completion time, failure records the error
message and leaves the previously cached data in place. -/
def execute {T : Type} (st : APIServiceState T) (cacheTime : Nat)
    (skipCache : Bool) (now : Nat) (call : NetResult T) (nowAfter : Nat) :
    APIServiceState T × Bool × Except String T :=
  match st.data, isCacheValid skipCache st.lastUpdated cacheTime now with
  | some d, true => (st, false, Except.ok d)
  | _, _ =>
      match call with
      | NetResult.success v =>
          let st2 : APIServiceState T :=
            { st with
                data := some v, isLoading := false, error := none,
                lastUpdated := some nowAfter }
          (st2, true, Except.ok v)
      | NetResult.failure msg =>
          let st2 : APIServiceState T :=
            { st with isLoading := false, error := some msg }
          (st2, true, Except.error msg)

/-- The refresh function of useAPIService: execute with skipCache set. -/
def refresh {T : Type} (st : APIServiceState T) (cacheTime now : Nat)
    (call : NetResult T) (nowAfter : Nat) :
    APIServiceState T × Bool × Except String T :=
  execute st cacheTime true now call nowAfter

end useAPIService

/-- C7: a fetch within the cache window with cached data and no forced
refresh returns the cached data unchanged and performs no network call;
outside the window the network call runs, success replaces data and resets
lastUpdated to the completion time while failure records the error without
clearing the cached data; and a refresh always performs the network call
regardless of the window.  The two configured thresholds are five minutes
by default and thirty seconds for the mentor dashboard. -/
theorem apiService_cache_spec {T : Type} (st : APIServiceState T)
    (cacheTime now nowAfter : Nat) (call : NetResult T) :
    (∀ d t, st.data = some d → st.lastUpdated = some t →
      now - t < cacheTime →
      useAPIService.execute st cacheTime false now call nowAfter
        = (st, false, Except.ok d))
    ∧ (isCacheValid false st.lastUpdated cacheTime now = false →
        (useAPIService.execute st cacheTime false now call nowAfter).2.1 = true
        ∧ (∀ v, call = NetResult.success v →
            (useAPIService.execute st cacheTime false now call nowAfter).1.data
              = some v
            ∧ (useAPIService.execute st cacheTime false now call
                nowAfter).1.lastUpdated = some nowAfter)
        ∧ (∀ msg, call = NetResult.failure msg →
            (useAPIService.execute st cacheTime false now call nowAfter).1.data
              = st.data
            ∧ (useAPIService.execute st cacheTime false now call
                nowAfter).1.error = some msg))
    ∧ ((useAPIService.refresh st cacheTime now call nowAfter).2.1 = true)
    ∧ (∀ msg, call = NetResult.failure msg →
        (useAPIService.refresh st cacheTime now call nowAfter).1.data = st.data
        ∧ (useAPIService.refresh st cacheTime now call nowAfter).1.error
            = some msg)
    ∧ defaultCacheTime = 5 * 60 * 1000
    ∧ mentorDashboardCacheTime = 30 * 1000 := by
  have hvalid : ∀ (d : T) (t : Nat), st.data = some d → st.lastUpdated = some t →
      now - t < cacheTime →
      isCacheValid false st.lastUpdated cacheTime now = true := by
    intro d t _ ht hlt
    simp [isCacheValid, ht, hlt]
  refine ⟨?_, ?_, ?_, ?_, rfl, rfl⟩
  · intro d t hd ht hlt
    unfold useAPIService.execute
    rw [hd, hvalid d t hd ht hlt]
  · intro hinvalid
    unfold useAPIService.execute
    rw [hinvalid]
    refine ⟨?_, ?_, ?_⟩
    · cases st.data <;> cases call <;> rfl
    · intro v hv
      subst hv
      cases st.data <;> exact ⟨rfl, rfl⟩
    · intro msg hmsg
      subst hmsg
      cases st.data <;> exact ⟨rfl, rfl⟩
  · unfold useAPIService.refresh useAPIService.execute
    have : isCacheValid true st.lastUpdated cacheTime now = false := by
      simp [isCacheValid]
    rw [this]
    cases st.data <;> cases call <;> rfl
  · intro msg hmsg
    subst hmsg
    unfold useAPIService.refresh useAPIService.execute
    have : isCacheValid true st.lastUpdated cacheTime now = false := by
      simp [isCacheValid]
    rw [this]
    cases st.data <;> exact ⟨rfl, rfl⟩

/-- Concrete cache state used by the C7 witness. -/
def stW : APIServiceState Nat :=
  { data := some 42, isLoading := false, error := none, lastUpdated := some 1000 }

/-- Witness for C7 at a concrete state: a fetch 1 second after the last one
returns the cached 42 without a network call; a refresh at the same instant
performs the network call; and a failing refresh keeps the cached data. -/
theorem apiService_cache_spec_witness :
    useAPIService.execute stW defaultCacheTime false 2000
        (NetResult.success 99) 2500 = (stW, false, Except.ok 42)
    ∧ (useAPIService.refresh stW defaultCacheTime 2000
        (NetResult.success 99) 2500).2.1 = true
    ∧ (useAPIService.refresh stW defaultCacheTime 2000
        (NetResult.failure "down") 2500).1.data = stW.data :=
  ⟨(apiService_cache_spec stW defaultCacheTime 2000 2500
      (NetResult.success 99)).1 42 1000 rfl rfl (by decide),
   (apiService_cache_spec stW defaultCacheTime 2000 2500
      (NetResult.success 99)).2.2.1,
   ((apiService_cache_spec stW defaultCacheTime 2000 2500
      (NetResult.failure "down")).2.2.2.1 "down" rfl).1⟩

/-- DAYS_THRESHOLD of IssueNotifications: days before an issue counts as
pending for too long. -/
def DAYS_THRESHOLD : Nat := 3

/-- Milliseconds per day, the divisor of the elapsed-days computation. -/
def msPerDay : Nat := 1000 * 60 * 60 * 24

/-- The default checkInterval of IssueNotifications: one hour. -/
def defaultCheckInterval : Nat := 60 * 60 * 1000

/-- The elapsed-days computation of checkPendingIssues:
Math.ceil(Math.abs(now - createdAt) / msPerDay). -/
def diffDays (now createdAt : Nat) : Nat :=
  (Nat.dist now createdAt + msPerDay - 1) / msPerDay

/-- The two fields of a fetched issue that checkPendingIssues reads. -/
structure FetchedIssue where
  status : String
  createdAt : Nat
deriving DecidableEq, Repr

/-- The filter predicate of checkPendingIssues: status Open or Under
Review, and the elapsed-days count at least DAYS_THRESHOLD. -/
def isOldPending (now : Nat) (i : FetchedIssue) : Bool :=
  (i.status == "Open" || i.status == "Under Review")
    && decide (DAYS_THRESHOLD ≤ diffDays now i.createdAt)

/-- One run of checkPendingIssues: given the hasShownNotifications flag,
whether the fetch succeeded with a success response, the fetched issues and
the clock, it returns the new flag and whether the consolidated
notification toast was shown on this run.  A run with the flag already set
returns before fetching. -/
def checkPendingIssues (hasShown : Bool) (fetchOk : Bool)
    (issues : List FetchedIssue) (now : Nat) : Bool × Bool :=
  if hasShown then (hasShown, false)
  else if !fetchOk then (hasShown, false)
  else
    let oldPendingIssues := issues.filter (isOldPending now)
    if oldPendingIssues.length > 0 then (true, true) else (hasShown, false)

/-- One poller tick: the outcome and content of the fetch and the clock. -/
structure Tick where
  fetchOk : Bool
  issues : List FetchedIssue
  now : Nat

/-- Poller session state of IssueNotifications.  stateFlag is the
hasShownNotifications component state (what setHasShownNotifications
updates across re-renders); capturedFlag is the value of
hasShownNotifications in the render whose checkPendingIssues closure the
effect handed to setInterval.  The effect only re-runs when autoCheck or
checkInterval change, so for the lifetime of one interval registration the
registered closure — and with it capturedFlag — is fixed: a state update
triggered by a shown toast re-renders the component but never replaces the
closure the interval keeps calling. -/
structure PollerSession where
  stateFlag : Bool
  capturedFlag : Bool

/-- One interval tick: the registered closure runs with the captured flag;
when a toast is shown, setHasShownNotifications(true) updates the component
state, leaving the captured flag untouched. -/
def runTick (s : PollerSession) (t : Tick) : PollerSession × Bool :=
  let r := checkPendingIssues s.capturedFlag t.fetchOk t.issues t.now
  ({ s with stateFlag := if r.2 then true else s.stateFlag }, r.2)

/-- A mentor session: checkPendingIssues runs through the registered
closure on every interval tick; the list records, tick by tick, whether a
notification was shown. -/
def runSession (s : PollerSession) : List Tick → List Bool
  | [] => []
  | t :: ts =>
      let r := runTick s t
      r.2 :: runSession r.1 ts

lemma runSession_eq_map (s : PollerSession) (ticks : List Tick) :
    runSession s ticks
      = ticks.map
          (fun t => (checkPendingIssues s.capturedFlag t.fetchOk t.issues t.now).2) := by
  induction ticks generalizing s with
  | nil => rfl
  | cons t ts ih => simp [runSession, runTick, ih]

/-- Counterexample to C8 as stated: first, with a single Open issue created
2 days plus 1 millisecond ago, the poller shows the notification although
no issue has been pending longer than 3 days (the ceiling rounding of the
elapsed-days computation reaches the threshold already beyond 2 days); and
second, a session whose two hourly ticks each fetch one overdue Open issue
shows a notification on both ticks — the interval keeps calling the
mount-render closure in which hasShownNotifications is false, so the shown
flag set by the first toast is never observed and the notification is not
once per session. -/
theorem notification_early_and_repeated :
    ((checkPendingIssues false true [⟨"Open", 0⟩] (2 * msPerDay + 1)).2 = true
      ∧ ¬ (3 * msPerDay < 2 * msPerDay + 1 - 0))
    ∧ runSession ⟨false, false⟩
        [⟨true, [⟨"Open", 0⟩], 10 * msPerDay⟩,
         ⟨true, [⟨"Open", 0⟩], 10 * msPerDay + defaultCheckInterval⟩]
        = [true, true] := by
  refine ⟨⟨?_, ?_⟩, ?_⟩
  · decide
  · decide
  · decide

/-- C8 (amended): on each tick the poller shows the consolidated
notification exactly when the fetch succeeds and some fetched issue with
status Open or Under Review has an elapsed-days count — the ceiling of
elapsed milliseconds over one day — of at least 3, which holds exactly when
it has been pending strictly more than 2 days.  The intended once-per-
session suppression is ineffective: every tick runs the closure that
setInterval holds, whose captured flag is fixed at registration (false at
mount), so the outcome of a session is determined tick by tick from the
captured flag alone; a shown toast sets the component state flag, but a
session continued after a shown tick behaves exactly as before, showing a
repeat notification on every later overdue tick, while every tick of the
fixed-interval polling is still processed. -/
theorem notification_poller_spec :
    (∀ issues now,
      (checkPendingIssues false true issues now).2 = true
        ↔ ∃ i ∈ issues, isOldPending now i = true)
    ∧ (∀ now created,
        DAYS_THRESHOLD ≤ diffDays now created
          ↔ 2 * msPerDay < Nat.dist now created)
    ∧ (∀ s ticks,
        runSession s ticks
          = ticks.map
              (fun t =>
                (checkPendingIssues s.capturedFlag t.fetchOk t.issues t.now).2))
    ∧ (∀ s t, (runTick s t).2 = true → (runTick s t).1.stateFlag = true)
    ∧ (∀ s t ts, runSession (runTick s t).1 ts = runSession s ts)
    ∧ (∀ s ticks, (runSession s ticks).length = ticks.length) := by
  refine ⟨?_, ?_, ?_, ?_, ?_, ?_⟩
  · intro issues now
    unfold checkPendingIssues
    simp only [if_false, Bool.not_true, ite_false]
    constructor
    · intro h
      by_cases hlen : (issues.filter (isOldPending now)).length > 0
      · obtain ⟨i, hi⟩ := List.exists_mem_of_length_pos hlen
        have := List.mem_filter.mp hi
        exact ⟨i, this.1, this.2⟩
      · rw [if_neg hlen] at h
        cases h
    · intro ⟨i, hi, hp⟩
      have hmem : i ∈ issues.filter (isOldPending now) :=
        List.mem_filter.mpr ⟨hi, hp⟩
      have hlen : (issues.filter (isOldPending now)).length > 0 :=
        List.length_pos.mpr (List.ne_nil_of_mem hmem)
      rw [if_pos hlen]
      rfl
  · intro now created
    have hd : 0 < msPerDay := by decide
    unfold DAYS_THRESHOLD diffDays
    rw [Nat.le_div_iff_mul_le hd]
    omega
  · exact runSession_eq_map
  · intro s t h
    unfold runTick at h ⊢
    simp only [] at h ⊢
    rw [h]
    rfl
  · intro s t ts
    rw [runSession_eq_map, runSession_eq_map]
    rfl
  · intro s ticks
    rw [runSession_eq_map]
    exact List.length_map ticks _

/-- Witness for C8: a tick that shows the toast sets the component state
flag, and a session run after that tick still behaves exactly as one run
before it. -/
theorem notification_poller_spec_witness :
    (runTick ⟨false, false⟩ ⟨true, [⟨"Open", 0⟩], 10 * msPerDay⟩).1.stateFlag
      = true
    ∧ runSession
        (runTick ⟨false, false⟩ ⟨true, [⟨"Open", 0⟩], 10 * msPerDay⟩).1
        [⟨true, [⟨"Open", 0⟩], 20 * msPerDay⟩]
      = runSession ⟨false, false⟩ [⟨true, [⟨"Open", 0⟩], 20 * msPerDay⟩] :=
  ⟨notification_poller_spec.2.2.2.1 ⟨false, false⟩
      ⟨true, [⟨"Open", 0⟩], 10 * msPerDay⟩ (by decide),
   notification_poller_spec.2.2.2.2.1 ⟨false, false⟩
      ⟨true, [⟨"Open", 0⟩], 10 * msPerDay⟩
      [⟨true, [⟨"Open", 0⟩], 20 * msPerDay⟩]⟩

/-- The database part of the health response, as produced by
dbStatus.getMongoStatus.  Both getMongoStatus and pingDatabase catch their
own exceptions (returning an error record, respectively false), so every
database condition flows through the try block of the route. -/
structure DbConnStatus where
  state : String
  connected : Bool
  host : String
  dbName : String
deriving DecidableEq, Repr

/-- The system block of the health response (values read from os). -/
structure SystemInfo where
  uptime : Nat
  memFree : Nat
  memTotal : Nat
  usedPercent : Nat
  cpus : Nat
deriving DecidableEq, Repr

/-- The health response body. -/
structure HealthResponse where
  status : String
  timestamp : Nat
  version : String
  environment : String
  database : DbConnStatus
  databaseResponsive : Bool
  system : SystemInfo
deriving DecidableEq, Repr

/-- GET /api/health (routes/health.js): computes isHealthy from the
connection status and the ping result and always responds 200, carrying
up or degraded in the status field of the body. -/
def healthHandler (dbConn : DbConnStatus) (dbResponsive : Bool)
    (sys : SystemInfo) (version env : String) (now : Nat) :
    Nat × HealthResponse :=
  let isHealthy := dbConn.connected && dbResponsive
  (200,
    { status := if isHealthy then "up" else "degraded",
      timestamp := now, version := version, environment := env,
      database := dbConn, databaseResponsive := dbResponsive,
      system := sys })

/-- C9: the health endpoint responds with HTTP status 200 for every
database condition — connected or not, responsive or not — and encodes the
actual health only in the status field of the body: up exactly when the
database is connected and responsive, degraded otherwise. -/
theorem health_always_200 (dbConn : DbConnStatus) (dbResponsive : Bool)
    (sys : SystemInfo) (version env : String) (now : Nat) :
    (healthHandler dbConn dbResponsive sys version env now).1 = 200
    ∧ ((healthHandler dbConn dbResponsive sys version env now).2.status = "up"
        ↔ (dbConn.connected ∧ dbResponsive))
    ∧ ((healthHandler dbConn dbResponsive sys version env now).2.status
          = "degraded"
        ↔ ¬(dbConn.connected ∧ dbResponsive)) := by
  refine ⟨rfl, ?_, ?_⟩
  · cases hc : dbConn.connected <;> cases hr : dbResponsive <;>
      simp [healthHandler, hc, hr]
  · cases hc : dbConn.connected <;> cases hr : dbResponsive <;>
      simp [healthHandler, hc, hr]

/-- Witness for C9: with a disconnected unresponsive database the endpoint
still responds 200 and reports degraded. -/
theorem health_always_200_witness :
    (healthHandler ⟨"disconnected", false, "h", "n"⟩ false ⟨1, 2, 3, 4, 5⟩
        "1.0.0" "production" 999).1 = 200
    ∧ ((healthHandler ⟨"disconnected", false, "h", "n"⟩ false ⟨1, 2, 3, 4, 5⟩
        "1.0.0" "production" 999).2.status = "degraded"
        ↔ ¬(False ∧ False)) :=
  ⟨(health_always_200 ⟨"disconnected", false, "h", "n"⟩ false ⟨1, 2, 3, 4, 5⟩
      "1.0.0" "production" 999).1,
   by
    have h := (health_always_200 ⟨"disconnected", false, "h", "n"⟩ false
      ⟨1, 2, 3, 4, 5⟩ "1.0.0" "production" 999).2.2
    simpa using h⟩

end ReportVerse
